import Mathlib

/-!
Shallow embedding of `concurrent.py` from facebookincubator/ft_utils:
`ConcurrentQueue`, `StdConcurrentQueue` and `ConcurrentGatheringIterator`.

The backing `ConcurrentDict` is modelled as an association list from `Int`
keys to values; `AtomicInt64` counters are modelled as `Int` (the `incr()`
method of `AtomicInt64` returns the post-increment value, as fixed by
`test_concurrency.py:290`).  All operations are given sequential
single-thread semantics: a blocking wait whose condition cannot be
satisfied by the current state either times out (when a timeout was
supplied) or is reported as `blocked` (when it was not), because no other
thread can run to change the state.  Store (dict) writes can be made to
fail through an explicit `storeOk` fault parameter where a claim needs it.
-/

namespace FtUtils

/-- Association-list lookup, modelling `ConcurrentDict.__getitem__`
(`none` models `KeyError`). -/
def getk {β : Type} : List (Int × β) → Int → Option β
  | [], _ => none
  | (k', v) :: rest, k => if k' = k then some v else getk rest k

/-- Association-list delete, modelling `ConcurrentDict.__delitem__`. -/
def delk {β : Type} : List (Int × β) → Int → List (Int × β)
  | [], _ => []
  | (k', v) :: rest, k =>
    if k' = k then delk rest k else (k', v) :: delk rest k

/-- Association-list store, modelling `ConcurrentDict.__setitem__`
(overwrite semantics). -/
def setk {β : Type} (d : List (Int × β)) (k : Int) (v : β) :
    List (Int × β) :=
  delk d k ++ [(k, v)]

/-- A slot of the queue's backing store: an ordinary value or a
`_PlaceHolder` carrying the consumer ticket it defers to. -/
inductive Slot (α : Type) where
  | item : α → Slot α
  | holder : Int → Slot α
  deriving DecidableEq, Repr

/-- The errors `ConcurrentQueue` operations can raise. -/
inductive QErr where
  /-- `queue.ShutDown` -/
  | shutDown : QErr
  /-- `queue.Empty` -/
  | empty : QErr
  /-- `queue.Full` -/
  | full : QErr
  /-- `RuntimeError(msg)` -/
  | runtimeError : String → QErr
  /-- the (unspecified) exception raised by a failing backing-store write,
  re-raised by `push` -/
  | storeError : QErr
  deriving DecidableEq, Repr

/-- Flag bit `ConcurrentQueue._SHUTDOWN`. -/
def SHUTDOWN : Nat := 1
/-- Flag bit `ConcurrentQueue._FAILED`. -/
def FAILED : Nat := 2
/-- Flag bit `ConcurrentQueue._SHUT_NOW`. -/
def SHUT_NOW : Nat := 4

/-- State of a `ConcurrentQueue`: backing dict, flag word, the two ticket
counters and the `lock_free` mode flag. -/
structure CQ (α : Type) where
  dict : List (Int × Slot α)
  flags : Nat
  inkey : Int
  outkey : Int
  lock_free : Bool
  deriving DecidableEq, Repr

/-- `ConcurrentQueue.__init__` (the `scaling` hint only tunes the store and
has no observable effect). -/
def CQ.init (α : Type) (lock_free : Bool) : CQ α :=
  { dict := [], flags := 0, inkey := 0, outkey := 0, lock_free := lock_free }

/-- `ConcurrentQueue.push`.  `storeOk` injects the possible failure of the
backing-store write `self._dict[self._inkey.incr()] = value`; the `incr()`
happens before the write, so a failing push still consumed the ticket.
Returns the raised error (if any) and the post-state. -/
def CQ.push {α : Type} (q : CQ α) (value : Slot α) (storeOk : Bool) :
    Option QErr × CQ α :=
  if q.flags &&& SHUTDOWN ≠ 0 then (some .shutDown, q)
  else if storeOk then
    (none, { q with inkey := q.inkey + 1,
                    dict := setk q.dict (q.inkey + 1) value })
  else
    (some .storeError, { q with inkey := q.inkey + 1,
                                flags := q.flags ||| FAILED })

/-- `ConcurrentQueue.size`. -/
def CQ.size {α : Type} (q : CQ α) : Int :=
  max 0 (q.inkey - q.outkey)

/-- `ConcurrentQueue.empty`. -/
def CQ.isEmpty {α : Type} (q : CQ α) : Bool :=
  q.size == 0

/-- `ConcurrentQueue.shutdown`. -/
def CQ.shutdown {α : Type} (q : CQ α) (immediate : Bool) : CQ α :=
  let q := { q with flags := q.flags ||| SHUTDOWN }
  if immediate then { q with flags := q.flags ||| SHUT_NOW } else q

/-- Outcome of a `pop`/`put`-like call under sequential semantics. -/
inductive PopOutcome (α : Type) where
  | ok : α → PopOutcome α
  | error : QErr → PopOutcome α
  /-- the call waits forever: no timeout was given and no other thread can
  run to satisfy the wait condition -/
  | blocked : PopOutcome α
  deriving DecidableEq, Repr

/-- `ConcurrentQueue._load_placeholder` under sequential semantics.  The
`while next_key not in dict` wait loop cannot be exited by another thread,
so when the key is absent it raises `ShutDown` if `SHUTDOWN` is set, then
`RuntimeError("Queue failed")` if `FAILED` is set, then times out (pushing
a fresh placeholder and raising `Empty`) when a timeout was given, and
otherwise waits forever.  When the key is present the slot is read and
deleted, and a placeholder slot is resolved recursively. -/
def CQ.loadPlaceholder {α : Type} (q : CQ α) (next_key : Int)
    (timeout : Option ℚ) : PopOutcome α × CQ α :=
  match hv : getk q.dict next_key with
  | none =>
    if q.flags &&& SHUTDOWN ≠ 0 then (.error .shutDown, q)
    else if q.flags &&& FAILED ≠ 0 then
      (.error (.runtimeError "Queue failed"), q)
    else if timeout.isSome then
      let r := q.push (.holder next_key) true
      (r.1.elim (.error .empty) .error, r.2)
    else (.blocked, q)
  | some value =>
    let q' : CQ α := { q with dict := delk q.dict next_key }
    match value with
    | .item v => (.ok v, q')
    | .holder k => CQ.loadPlaceholder q' k timeout
termination_by q.dict.length
decreasing_by
  have H : ∀ (l : List (Int × Slot α)) (j : Int), (getk l j).isSome →
      (delk l j).length < l.length := by
    intro l j h
    induction l with
    | nil => simp [getk] at h
    | cons p rest ih =>
      obtain ⟨k', w⟩ := p
      by_cases hk : k' = j
      · have : (delk rest j).length ≤ rest.length := by
          clear h ih
          induction rest with
          | nil => simp [delk]
          | cons p2 r ihr =>
            obtain ⟨k2, w2⟩ := p2
            by_cases h2 : k2 = j
            · simp [delk, h2]; omega
            · simp [delk, h2]; omega
        simp [delk, hk]
        omega
      · simp [getk, hk] at h
        have := ih h
        simp [delk, hk]
        omega
  exact H q.dict next_key (by rw [hv]; rfl)

/-- The bounded retry loop ending `ConcurrentQueue.pop` (entered with
`countdown = 100`): try to read-and-delete the slot at `next_key`; on
`KeyError` decrement the countdown, sleep `0` while the decremented
countdown is `> 95` and `0.05` seconds otherwise, and when the countdown
reaches zero give up with
`RuntimeError("Failed to acquire value in timely fashion")`.  Under
sequential semantics the dict cannot change between iterations.  The third
component records the durations of the sleeps the loop performed, in
order, in milliseconds (`0` is `time.sleep(0)`, a bare yield; `50` is
`time.sleep(0.05)`). -/
def CQ.popRetry {α : Type} (q : CQ α) (next_key : Int) (timeout : Option ℚ)
    (countdown : Nat) : PopOutcome α × CQ α × List Nat :=
  match countdown with
  | 0 =>
    (.error (.runtimeError "Failed to acquire value in timely fashion"),
     q, [])
  | n + 1 =>
    match getk q.dict next_key with
    | some value =>
      let q' : CQ α := { q with dict := delk q.dict next_key }
      match value with
      | .holder k =>
        let r := q'.loadPlaceholder k timeout
        (r.1, r.2, [])
      | .item v => (.ok v, q', [])
    | none =>
      let s : Nat := if n > 95 then 0 else 50
      let r := q.popRetry next_key timeout n
      (r.1, r.2.1, s :: r.2.2)

/-- `ConcurrentQueue.pop` under sequential semantics: obtain the consumer
ticket `outkey.incr()`, check `SHUT_NOW` then `FAILED`, and if
`inkey < ticket` wait (sequentially: raise `ShutDown` if `SHUTDOWN` is
set; with no timeout the wait never returns; with a timeout it expires,
`_add_placeholder` pushes a placeholder carrying the abandoned ticket at a
fresh producer ticket, and `Empty` is raised — the `lock_free` flag only
selects between condition-variable and spin waiting, whose sequential
outcomes coincide).  Otherwise read the slot through the bounded retry
loop.  The third component lists the sleeps performed by the retry
loop (in milliseconds). -/
def CQ.pop {α : Type} (q : CQ α) (timeout : Option ℚ) :
    PopOutcome α × CQ α × List Nat :=
  let next_key := q.outkey + 1
  let q : CQ α := { q with outkey := next_key }
  if q.flags &&& SHUT_NOW ≠ 0 then (.error .shutDown, q, [])
  else if q.flags &&& FAILED ≠ 0 then
    (.error (.runtimeError "Queue failed"), q, [])
  else if q.inkey < next_key then
    if q.flags &&& SHUTDOWN ≠ 0 then (.error .shutDown, q, [])
    else if timeout.isSome then
      let r := q.push (.holder next_key) true
      (r.1.elim (.error .empty) .error, r.2, [])
    else (.blocked, q, [])
  else
    q.popRetry next_key timeout 100

/-- State of a `StdConcurrentQueue`: the underlying `ConcurrentQueue`
(always in `lock_free` mode), the stored `maxsize` and the
`_active_tasks` counter. -/
structure StdCQ (α : Type) where
  q : CQ α
  maxsize : Int
  active_tasks : Int
  deriving DecidableEq, Repr

/-- `StdConcurrentQueue.__init__`: lock-free underlying queue,
`maxsize` clamped to `max(maxsize, 0)`, no active tasks. -/
def StdCQ.init (α : Type) (maxsize : Int) : StdCQ α :=
  { q := CQ.init α true, maxsize := max maxsize 0, active_tasks := 0 }

/-- `StdConcurrentQueue.qsize`. -/
def StdCQ.qsize {α : Type} (s : StdCQ α) : Int := s.q.size

/-- `StdConcurrentQueue.full`: `bool(_maxsize and self.size() >= _maxsize)`. -/
def StdCQ.full {α : Type} (s : StdCQ α) : Bool :=
  s.maxsize != 0 && decide (s.maxsize ≤ s.q.size)

/-- `StdConcurrentQueue.get`: with `block` and a timeout other than `0.0`
it delegates to `pop(timeout)`; otherwise it raises `Empty` without
touching the queue unless `size() > 0`, in which case it delegates to
`pop(timeout=0.0)`. -/
def StdCQ.get {α : Type} (s : StdCQ α) (block : Bool)
    (timeout : Option ℚ) : PopOutcome α × StdCQ α :=
  if block && timeout != some 0 then
    let r := s.q.pop timeout
    (r.1, { s with q := r.2.1 })
  else
    if s.q.size > 0 then
      let r := s.q.pop (some 0)
      (r.1, { s with q := r.2.1 })
    else (.error .empty, s)

/-- `StdConcurrentQueue.get_nowait`. -/
def StdCQ.get_nowait {α : Type} (s : StdCQ α) : PopOutcome α × StdCQ α :=
  s.get false none

/-- `StdConcurrentQueue.put` under sequential semantics.  When `block`,
`maxsize` is nonzero and the queue is full, the busy-wait loop can never
see the queue drain (no other thread runs), so it raises `ShutDown` if
`SHUTDOWN` is set, times out with `Full` if a timeout was given, and
otherwise waits forever.  Without the blocking branch, a full queue raises
`Full` immediately.  Otherwise the item is pushed and, if the push
succeeded, `_active_tasks` is incremented. -/
def StdCQ.put {α : Type} (s : StdCQ α) (item : α) (block : Bool)
    (timeout : Option ℚ) (storeOk : Bool) : PopOutcome Unit × StdCQ α :=
  if block && s.maxsize != 0 && s.full then
    if s.q.flags &&& SHUTDOWN ≠ 0 then (.error .shutDown, s)
    else
      match timeout with
      | some _ => (.error .full, s)
      | none => (.blocked, s)
  else
    if s.full then (.error .full, s)
    else
      match s.q.push (.item item) storeOk with
      | (some e, q') => (.error e, { s with q := q' })
      | (none, q') =>
        (.ok (), { s with q := q', active_tasks := s.active_tasks + 1 })

/-- `StdConcurrentQueue.put_nowait`. -/
def StdCQ.put_nowait {α : Type} (s : StdCQ α) (item : α) (storeOk : Bool) :
    PopOutcome Unit × StdCQ α :=
  s.put item false none storeOk

/-- `StdConcurrentQueue.task_done`. -/
def StdCQ.task_done {α : Type} (s : StdCQ α) : StdCQ α :=
  { s with active_tasks := s.active_tasks - 1 }

/-- State of a `ConcurrentGatheringIterator`: the backing dict and the
`_failed` atomic flag. -/
structure Gather (α : Type) where
  dict : List (Int × α)
  failed : Bool
  deriving DecidableEq, Repr

/-- `ConcurrentGatheringIterator.insert`: store the pair; a failing store
write sets the `_failed` flag and re-raises. -/
def Gather.insert {α : Type} (g : Gather α) (key : Int) (value : α)
    (storeOk : Bool) : Option QErr × Gather α :=
  if storeOk then (none, { g with dict := setk g.dict key value })
  else (some .storeError, { g with failed := true })

/-- Status of a (sequential) run of the gathering iterator. -/
inductive GStatus where
  /-- ran to completion -/
  | done : GStatus
  /-- raised `RuntimeError("Iterator insertion failed")` -/
  | failError : GStatus
  /-- waits forever for a key that is not present -/
  | blocked : GStatus
  deriving DecidableEq, Repr

/-- Result of a sequential run of the gathering iterator: the values
yielded (in order), the final state of the dict, and how the run ended. -/
structure GRes (α : Type) where
  yielded : List α
  dict : List (Int × α)
  status : GStatus
  deriving DecidableEq, Repr

/-- The loop body of `ConcurrentGatheringIterator.iterator` under
sequential semantics, iterating `fuel` keys starting at `key`.  A present
key is read, deleted when `clear`, and yielded; an absent key sends the
consumer into the condition-variable wait loop, which (the dict being
unable to change) raises `RuntimeError` if the `_failed` flag is set and
otherwise re-waits forever.  Note the flag is only ever consulted inside
that wait loop. -/
def gatherFrom {α : Type} (d : List (Int × α)) (failed : Bool)
    (clear : Bool) (key : Int) (fuel : Nat) : GRes α :=
  match fuel with
  | 0 => ⟨[], d, .done⟩
  | n + 1 =>
    match getk d key with
    | some v =>
      let d' := if clear then delk d key else d
      let rest := gatherFrom d' failed clear (key + 1) n
      ⟨v :: rest.yielded, rest.dict, rest.status⟩
    | none =>
      if failed then ⟨[], d, .failError⟩ else ⟨[], d, .blocked⟩

/-- `ConcurrentGatheringIterator.iterator(max_key, clear)`, fully run:
walks keys `0, 1, ..., max_key` (no iterations when `max_key < 0`). -/
def Gather.iterator {α : Type} (g : Gather α) (max_key : Int)
    (clear : Bool) : GRes α :=
  gatherFrom g.dict g.failed clear 0 (max_key + 1).toNat

/-- `a` is a sub-mask of `b`: every bit set in `a` is set in `b` (the
order in which flag words evolve). -/
def flagsLE (a b : Nat) : Prop := a ||| b = b

/-! ### Helper lemmas: the association-list store -/

theorem getk_setk_self {β : Type} (d : List (Int × β)) (k : Int) (v : β) :
    getk (setk d k v) k = some v := by
  induction d with
  | nil => simp [setk, delk, getk]
  | cons p rest ih =>
    obtain ⟨k', w⟩ := p
    by_cases h : k' = k
    · simpa [setk, delk, h] using ih
    · simpa [setk, delk, getk, h] using ih

theorem getk_delk_ne {β : Type} (d : List (Int × β)) (k j : Int)
    (h : j ≠ k) : getk (delk d k) j = getk d j := by
  induction d with
  | nil => rfl
  | cons p rest ih =>
    obtain ⟨k', w⟩ := p
    simp only [delk, getk]
    by_cases hk : k' = k
    · rw [if_pos hk, ih, if_neg (fun hj : k' = j => h (by omega))]
    · rw [if_neg hk]
      simp only [getk]
      by_cases hj : k' = j
      · rw [if_pos hj, if_pos hj]
      · rw [if_neg hj, if_neg hj, ih]

theorem getk_setk_ne {β : Type} (d : List (Int × β)) (k j : Int) (v : β)
    (h : j ≠ k) : getk (setk d k v) j = getk d j := by
  induction d with
  | nil =>
    simp only [setk, delk, List.nil_append, getk]
    rw [if_neg (fun hh : k = j => h hh.symm)]
  | cons p rest ih =>
    obtain ⟨k', w⟩ := p
    simp only [setk, delk]
    by_cases hk : k' = k
    · rw [if_pos hk]
      show getk (setk rest k v) j = _
      rw [ih]
      simp only [getk]
      rw [if_neg (fun hj : k' = j => h (by omega))]
    · rw [if_neg hk]
      simp only [List.cons_append, getk]
      by_cases hj : k' = j
      · rw [if_pos hj, if_pos hj]
      · rw [if_neg hj, if_neg hj]
        show getk (setk rest k v) j = _
        rw [ih]

theorem getk_delk_self {β : Type} (d : List (Int × β)) (k : Int) :
    getk (delk d k) k = none := by
  induction d with
  | nil => simp [delk, getk]
  | cons p rest ih =>
    obtain ⟨k', w⟩ := p
    by_cases hk : k' = k
    · simp [delk, hk, ih]
    · simp [delk, getk, hk, ih]

theorem delk_length_lt {β : Type} (d : List (Int × β)) (k : Int)
    (h : (getk d k).isSome) : (delk d k).length < d.length := by
  induction d with
  | nil => simp [getk] at h
  | cons p rest ih =>
    obtain ⟨k', w⟩ := p
    by_cases hk : k' = k
    · have : (delk rest k).length ≤ rest.length := by
        clear h ih
        induction rest with
        | nil => simp [delk]
        | cons q r ihr =>
          obtain ⟨k2, w2⟩ := q
          by_cases h2 : k2 = k
          · simp [delk, h2]; omega
          · simp [delk, h2]; omega
      simp [delk, hk]
      omega
    · simp [getk, hk] at h
      have := ih h
      simp [delk, hk]
      omega

/-! ### Helper lemmas: bit masks -/

theorem and_or_right (a b c : Nat) :
    (a ||| b) &&& c = (a &&& c) ||| (b &&& c) := by
  apply Nat.eq_of_testBit_eq
  intro i
  simp [Nat.testBit_or, Nat.testBit_and, Bool.and_or_distrib_right]

theorem or_eq_zero (a b : Nat) : a ||| b = 0 ↔ a = 0 ∧ b = 0 := by
  constructor
  · intro h
    constructor
    · apply Nat.eq_of_testBit_eq; intro i
      have := congrArg (fun x => Nat.testBit x i) h
      simp [Nat.testBit_or] at this
      simp [this.1]
    · apply Nat.eq_of_testBit_eq; intro i
      have := congrArg (fun x => Nat.testBit x i) h
      simp [Nat.testBit_or] at this
      simp [this.2]
  · rintro ⟨rfl, rfl⟩; rfl

theorem flagsLE_or (a m : Nat) : flagsLE a (a ||| m) := by
  show a ||| (a ||| m) = a ||| m
  rw [← Nat.or_assoc, Nat.or_self]

theorem flagsLE_refl (a : Nat) : flagsLE a a := Nat.or_self a

/-! ### Helper lemmas: flag-word evolution of the queue operations -/

theorem push_flags_true {α : Type} (q : CQ α) (v : Slot α) :
    ((q.push v true).2).flags = q.flags := by
  unfold CQ.push
  split <;> rfl

theorem loadPlaceholder_flags {α : Type} (q : CQ α) (k : Int)
    (t : Option ℚ) : ((q.loadPlaceholder k t).2).flags = q.flags := by
  generalize hn : q.dict.length = n
  induction n using Nat.strong_induction_on generalizing q k with
  | _ n ih =>
    rw [CQ.loadPlaceholder.eq_def]
    split
    · split_ifs <;> first | rfl | exact push_flags_true _ _
    · rename_i value hv
      simp only []
      split
      · rfl
      · rename_i k'
        have hlt : (delk q.dict k).length < n := by
          rw [← hn]
          exact delk_length_lt q.dict k (by rw [hv]; rfl)
        exact ih _ hlt _ k' rfl

theorem popRetry_flags {α : Type} (q : CQ α) (k : Int) (t : Option ℚ)
    (c : Nat) : ((q.popRetry k t c).2.1).flags = q.flags := by
  induction c generalizing q with
  | zero => rfl
  | succ n ih =>
    rw [CQ.popRetry]
    split
    · split
      · exact loadPlaceholder_flags _ _ _
      · rfl
    · exact ih q

theorem pop_flags {α : Type} (q : CQ α) (t : Option ℚ) :
    ((q.pop t).2.1).flags = q.flags := by
  simp only [CQ.pop]
  split_ifs <;>
    first
      | rfl
      | exact push_flags_true _ _
      | exact popRetry_flags _ _ _ _

/-- The sleep schedule of the retry loop when the slot never appears:
`countdown` failed attempts, the attempt decrementing the countdown to `m`
sleeping `0` when `m > 95` and `50` ms otherwise, ending in
`RuntimeError("Failed to acquire value in timely fashion")`. -/
theorem popRetry_absent {α : Type} (q : CQ α) (k : Int) (t : Option ℚ)
    (c : Nat) (h : getk q.dict k = none) :
    q.popRetry k t c =
      (.error (.runtimeError "Failed to acquire value in timely fashion"),
       q,
       (List.range c).map
         (fun i => if c - 1 - i > 95 then (0 : Nat) else 50)) := by
  induction c generalizing q with
  | zero => simp [CQ.popRetry]
  | succ n ih =>
    rw [CQ.popRetry]
    rw [h]
    simp only [ih q h]
    rw [List.range_succ_eq_map]
    simp [Function.comp_def]
    intro a _
    have hsub : n - 1 - a = n - (a + 1) := by omega
    rw [hsub]

theorem mask_or_zero (a m c : Nat) (h1 : a &&& c = 0) (h2 : m &&& c = 0) :
    (a ||| m) &&& c = 0 := by
  rw [and_or_right, h1, h2]
  rfl

theorem mask_or_ne (a m c : Nat) (h : m &&& c ≠ 0) :
    (a ||| m) &&& c ≠ 0 := by
  rw [and_or_right]
  intro hc
  exact h ((or_eq_zero _ _).1 hc).2

theorem flagsLE_mask_ne (a b c : Nat) (h : flagsLE a b) (hm : a &&& c ≠ 0) :
    b &&& c ≠ 0 := by
  intro hc
  apply hm
  have hab : (a ||| b) &&& c = 0 := by
    rw [h]; exact hc
  rw [and_or_right] at hab
  exact ((or_eq_zero _ _).1 hab).1

theorem flagsLE_or2 (a m1 m2 : Nat) : flagsLE a ((a ||| m1) ||| m2) := by
  rw [Nat.or_assoc]
  exact flagsLE_or _ _

/-! ### Step lemmas for the individual branches of push and pop -/

theorem push_ok {α : Type} (q : CQ α) (v : Slot α)
    (h : q.flags &&& SHUTDOWN = 0) :
    q.push v true =
      (none, { q with inkey := q.inkey + 1,
                      dict := setk q.dict (q.inkey + 1) v }) := by
  simp [CQ.push, h]

theorem push_shut {α : Type} (q : CQ α) (v : Slot α) (ok : Bool)
    (h : q.flags &&& SHUTDOWN ≠ 0) :
    q.push v ok = (some .shutDown, q) := by
  simp [CQ.push, h]

theorem push_fail {α : Type} (q : CQ α) (v : Slot α)
    (h : q.flags &&& SHUTDOWN = 0) :
    q.push v false =
      (some .storeError,
       { q with inkey := q.inkey + 1, flags := q.flags ||| FAILED }) := by
  simp [CQ.push, h]

theorem push_flagsLE {α : Type} (q : CQ α) (v : Slot α) (ok : Bool) :
    flagsLE q.flags ((q.push v ok).2).flags := by
  unfold CQ.push
  split_ifs <;> first | exact flagsLE_refl _ | exact flagsLE_or _ _

theorem shutdown_flagsLE {α : Type} (q : CQ α) (imm : Bool) :
    flagsLE q.flags ((q.shutdown imm).flags) := by
  unfold CQ.shutdown
  split_ifs
  · exact flagsLE_or2 _ _ _
  · exact flagsLE_or _ _

theorem pop_shutnow {α : Type} (q : CQ α) (t : Option ℚ)
    (h : q.flags &&& SHUT_NOW ≠ 0) :
    q.pop t = (.error .shutDown, { q with outkey := q.outkey + 1 }, []) := by
  simp [CQ.pop, h]

theorem pop_failed {α : Type} (q : CQ α) (t : Option ℚ)
    (h1 : q.flags &&& SHUT_NOW = 0) (h2 : q.flags &&& FAILED ≠ 0) :
    q.pop t =
      (.error (.runtimeError "Queue failed"),
       { q with outkey := q.outkey + 1 }, []) := by
  simp [CQ.pop, h1, h2]

theorem pop_wait_shutdown {α : Type} (q : CQ α) (t : Option ℚ)
    (h1 : q.flags &&& SHUT_NOW = 0) (h2 : q.flags &&& FAILED = 0)
    (h3 : q.inkey < q.outkey + 1) (h4 : q.flags &&& SHUTDOWN ≠ 0) :
    q.pop t = (.error .shutDown, { q with outkey := q.outkey + 1 }, []) := by
  simp [CQ.pop, h1, h2, h3, h4]

theorem pop_blocked {α : Type} (q : CQ α)
    (h1 : q.flags &&& SHUT_NOW = 0) (h2 : q.flags &&& FAILED = 0)
    (h3 : q.inkey < q.outkey + 1) (h4 : q.flags &&& SHUTDOWN = 0) :
    q.pop none = (.blocked, { q with outkey := q.outkey + 1 }, []) := by
  simp [CQ.pop, h1, h2, h3, h4]

theorem pop_timeout {α : Type} (q : CQ α) (r : ℚ)
    (h1 : q.flags &&& SHUT_NOW = 0) (h2 : q.flags &&& FAILED = 0)
    (h3 : q.inkey < q.outkey + 1) (h4 : q.flags &&& SHUTDOWN = 0) :
    q.pop (some r) =
      (.error .empty,
       { q with outkey := q.outkey + 1, inkey := q.inkey + 1,
                dict := setk q.dict (q.inkey + 1)
                  (.holder (q.outkey + 1)) }, []) := by
  have hpush := push_ok { q with outkey := q.outkey + 1 }
    (Slot.holder (q.outkey + 1)) h4
  simp [CQ.pop, h1, h2, h3, h4, hpush]

theorem popRetry_hit {α : Type} (q : CQ α) (k : Int) (t : Option ℚ)
    (v : α) (c : Nat) (hc : c ≠ 0)
    (hs : getk q.dict k = some (.item v)) :
    q.popRetry k t c = (.ok v, { q with dict := delk q.dict k }, []) := by
  cases c with
  | zero => exact absurd rfl hc
  | succ n =>
    rw [CQ.popRetry, hs]

theorem pop_hit {α : Type} (q : CQ α) (t : Option ℚ) (v : α)
    (h1 : q.flags &&& SHUT_NOW = 0) (h2 : q.flags &&& FAILED = 0)
    (h3 : q.outkey + 1 ≤ q.inkey)
    (hs : getk q.dict (q.outkey + 1) = some (.item v)) :
    q.pop t =
      (.ok v, { q with outkey := q.outkey + 1,
                       dict := delk q.dict (q.outkey + 1) }, []) := by
  have h3' : ¬(q.inkey < q.outkey + 1) := by omega
  have hretry := popRetry_hit { q with outkey := q.outkey + 1 }
    (q.outkey + 1) t v 100 (by decide) hs
  simp [CQ.pop, h1, h2, h3', hretry]

/-! ### Helper lemmas for the gathering iterator -/

theorem gatherFrom_all_noclear {α : Type} (fuel : Nat) (d : List (Int × α))
    (failed : Bool) (key : Int) (vf : Nat → α)
    (h : ∀ i : Nat, i < fuel → getk d (key + (i : Int)) = some (vf i)) :
    gatherFrom d failed false key fuel =
      ⟨(List.range fuel).map vf, d, .done⟩ := by
  induction fuel generalizing d key vf with
  | zero => rfl
  | succ n ih =>
    have h0 : getk d key = some (vf 0) := by
      simpa using h 0 (Nat.succ_pos n)
    have hd' : ∀ i : Nat, i < n →
        getk d (key + 1 + (i : Int)) = some (vf (i + 1)) := by
      intro i hi
      have hv2 : getk d (key + ((i + 1 : Nat) : Int)) = some (vf (i + 1)) :=
        h (i + 1) (by omega)
      have harg : key + ((i + 1 : Nat) : Int) = key + 1 + (i : Int) := by
        push_cast
        ring
      rw [harg] at hv2
      exact hv2
    have ihr := ih d (key + 1) (fun i => vf (i + 1)) hd'
    simp only [gatherFrom, h0, Bool.false_eq_true, if_false, ihr]
    rw [List.range_succ_eq_map]
    simp [Function.comp_def]

theorem gatherFrom_all_clear {α : Type} (fuel : Nat) (d : List (Int × α))
    (failed : Bool) (key : Int) (vf : Nat → α)
    (h : ∀ i : Nat, i < fuel → getk d (key + (i : Int)) = some (vf i)) :
    (gatherFrom d failed true key fuel).status = .done ∧
    (gatherFrom d failed true key fuel).yielded =
      (List.range fuel).map vf ∧
    (∀ j : Int, getk (gatherFrom d failed true key fuel).dict j =
      if key ≤ j ∧ j < key + (fuel : Int) then none else getk d j) := by
  induction fuel generalizing d key vf with
  | zero =>
    refine ⟨rfl, rfl, fun j => ?_⟩
    rw [if_neg (by omega)]
    rfl
  | succ n ih =>
    have h0 : getk d key = some (vf 0) := by
      simpa using h 0 (Nat.succ_pos n)
    have hd' : ∀ i : Nat, i < n →
        getk (delk d key) (key + 1 + (i : Int)) = some (vf (i + 1)) := by
      intro i hi
      have hne : key + 1 + (i : Int) ≠ key := by omega
      have hv2 : getk d (key + ((i + 1 : Nat) : Int)) = some (vf (i + 1)) :=
        h (i + 1) (by omega)
      have harg : key + ((i + 1 : Nat) : Int) = key + 1 + (i : Int) := by
        push_cast
        ring
      rw [harg] at hv2
      rw [getk_delk_ne _ _ _ hne]
      exact hv2
    obtain ⟨ihs, ihy, ihd⟩ :=
      ih (delk d key) (key + 1) (fun i => vf (i + 1)) hd'
    refine ⟨?_, ?_, fun j => ?_⟩
    · simp only [gatherFrom, h0, if_true]
      exact ihs
    · simp only [gatherFrom, h0, if_true]
      rw [ihy, List.range_succ_eq_map]
      simp [Function.comp_def]
    · simp only [gatherFrom, h0, if_true]
      rw [ihd j]
      by_cases hj1 : key + 1 ≤ j ∧ j < key + 1 + (n : Int)
      · rw [if_pos hj1, if_pos (by push_cast; omega)]
      · rw [if_neg hj1]
        by_cases hj2 : j = key
        · subst hj2
          rw [getk_delk_self, if_pos (by push_cast; omega)]
        · rw [getk_delk_ne _ _ _ hj2, if_neg (by push_cast; omega)]

theorem gatherFrom_failed {α : Type} (fuel : Nat) (d : List (Int × α))
    (clear : Bool) (key : Int) :
    (gatherFrom d true clear key fuel).status ≠ .blocked ∧
    ((∃ i : Nat, i < fuel ∧ getk d (key + (i : Int)) = none) →
      (gatherFrom d true clear key fuel).status = .failError) := by
  induction fuel generalizing d key with
  | zero =>
    constructor
    · intro hc
      simp [gatherFrom] at hc
    · rintro ⟨i, hi, _⟩
      omega
  | succ n ih =>
    cases hk : getk d key with
    | none =>
      constructor
      · simp [gatherFrom, hk]
      · intro _
        simp [gatherFrom, hk]
    | some v =>
      obtain ⟨ihb, ihf⟩ := ih (if clear then delk d key else d) (key + 1)
      constructor
      · simp only [gatherFrom, hk]
        exact ihb
      · rintro ⟨i, hi, hnone⟩
        simp only [gatherFrom, hk]
        apply ihf
        have hi0 : i ≠ 0 := by
          rintro rfl
          simp only [Nat.cast_zero, add_zero] at hnone
          rw [hk] at hnone
          cases hnone
        refine ⟨i - 1, by omega, ?_⟩
        have harg : key + 1 + ((i - 1 : Nat) : Int) = key + (i : Int) := by
          have : ((i - 1 : Nat) : Int) = (i : Int) - 1 := by omega
          rw [this]
          ring
        rw [harg]
        have hne : key + (i : Int) ≠ key := by omega
        cases clear with
        | false => simpa using hnone
        | true => simpa [getk_delk_ne _ _ _ hne] using hnone

/-! ### The claims -/

/-- C1: for every value `v` and timeout `t`, `pop(timeout=t)` on an empty
`ConcurrentQueue` (`inkey = outkey`, no flags set) times out and raises
`Empty` after inserting a placeholder recording its abandoned ticket
(stored at the fresh producer ticket `inkey + 1`, carrying the abandoned
consumer ticket `outkey + 1`); a subsequent `push v` followed by a `pop()`
then succeeds and returns exactly `v`. -/
theorem C1_pop_timeout_placeholder_resolution {α : Type} (q : CQ α)
    (v : α) (t : ℚ)
    (hfl : q.flags = 0) (hio : q.inkey = q.outkey) :
    (q.pop (some t)).1 = .error .empty ∧
    getk ((q.pop (some t)).2.1).dict (q.inkey + 1) =
      some (.holder (q.outkey + 1)) ∧
    ((q.pop (some t)).2.1).inkey = q.inkey + 1 ∧
    ((q.pop (some t)).2.1).outkey = q.outkey + 1 ∧
    (((q.pop (some t)).2.1).push (.item v) true).1 = none ∧
    (((((q.pop (some t)).2.1).push (.item v) true).2).pop none).1 =
      .ok v := by
  have h1 : q.flags &&& SHUT_NOW = 0 := by rw [hfl]; rfl
  have h2 : q.flags &&& FAILED = 0 := by rw [hfl]; rfl
  have h4 : q.flags &&& SHUTDOWN = 0 := by rw [hfl]; rfl
  have hp := pop_timeout q t h1 h2 (by omega) h4
  rw [hp]
  have hpush := push_ok
    { q with outkey := q.outkey + 1, inkey := q.inkey + 1,
             dict := setk q.dict (q.inkey + 1) (.holder (q.outkey + 1)) }
    (Slot.item v) h4
  rw [hpush]
  refine ⟨rfl, getk_setk_self _ _ _, rfl, rfl, rfl, ?_⟩
  have hs : getk (setk (setk q.dict (q.inkey + 1)
      (Slot.holder (q.outkey + 1))) (q.inkey + 1 + 1) (Slot.item v))
      (q.outkey + 1 + 1) = some (.item v) := by
    have hk : q.outkey + 1 + 1 = q.inkey + 1 + 1 := by omega
    rw [hk]
    exact getk_setk_self _ _ _
  have hfinal := pop_hit
    { q with outkey := q.outkey + 1, inkey := q.inkey + 1 + 1,
             dict := setk (setk q.dict (q.inkey + 1)
               (Slot.holder (q.outkey + 1))) (q.inkey + 1 + 1)
               (Slot.item v) }
    none v h1 h2 (by simp only []; omega) hs
  rw [hfinal]

/-- C1 witness: the scenario evaluated on a fresh queue with `v = 42`,
`t = 1`. -/
theorem C1_witness :
    ((CQ.init Nat false).pop (some 1)).1 = .error .empty ∧
    getk (((CQ.init Nat false).pop (some 1)).2.1).dict 1 =
      some (.holder 1) ∧
    ((((((CQ.init Nat false).pop (some 1)).2.1).push (.item 42)
      true).2).pop none).1 = .ok 42 := by
  have h := C1_pop_timeout_placeholder_resolution (CQ.init Nat false)
    42 1 rfl rfl
  exact ⟨h.1, h.2.1, h.2.2.2.2.2⟩

/-- C2: after `shutdown(immediate=False)` every `push` raises `ShutDown`
and leaves the queue unchanged, while `pop` still returns the next
already-queued value; after `shutdown(immediate=True)` both `push` and
`pop` raise `ShutDown` even though a queued value remains. -/
theorem C2_shutdown_graceful_vs_immediate {α : Type} (q : CQ α) (v w : α)
    (t : Option ℚ)
    (hns : q.flags &&& SHUT_NOW = 0) (hnf : q.flags &&& FAILED = 0)
    (hqueued : q.outkey + 1 ≤ q.inkey)
    (hslot : getk q.dict (q.outkey + 1) = some (.item v)) :
    ((q.shutdown false).push (.item w) true).1 = some .shutDown ∧
    ((q.shutdown false).push (.item w) true).2 = q.shutdown false ∧
    ((q.shutdown false).pop t).1 = .ok v ∧
    ((q.shutdown true).push (.item w) true).1 = some .shutDown ∧
    ((q.shutdown true).pop t).1 = .error .shutDown := by
  have hg : q.shutdown false = { q with flags := q.flags ||| SHUTDOWN } :=
    rfl
  have hi : q.shutdown true =
      { q with flags := (q.flags ||| SHUTDOWN) ||| SHUT_NOW } := rfl
  have hgp := push_shut { q with flags := q.flags ||| SHUTDOWN }
    (Slot.item w) true (mask_or_ne _ _ _ (by decide))
  have hip := push_shut
    { q with flags := (q.flags ||| SHUTDOWN) ||| SHUT_NOW }
    (Slot.item w) true
    (by
      rw [Nat.or_assoc]
      exact mask_or_ne _ _ _ (by decide))
  have hgpop := pop_hit { q with flags := q.flags ||| SHUTDOWN } t v
    (mask_or_zero _ _ _ hns (by decide))
    (mask_or_zero _ _ _ hnf (by decide)) hqueued hslot
  have hipop := pop_shutnow
    { q with flags := (q.flags ||| SHUTDOWN) ||| SHUT_NOW } t
    (mask_or_ne _ _ _ (by decide))
  rw [hg, hi, hgp, hip, hgpop, hipop]
  exact ⟨rfl, rfl, rfl, rfl, rfl⟩

/-- C2 witness: a queue holding the single value `7`. -/
theorem C2_witness :
    (((⟨[(1, .item 7)], 0, 1, 0, false⟩ : CQ Nat).shutdown false).push
      (.item 8) true).1 = some .shutDown ∧
    (((⟨[(1, .item 7)], 0, 1, 0, false⟩ : CQ Nat).shutdown false).pop
      none).1 = .ok 7 ∧
    (((⟨[(1, .item 7)], 0, 1, 0, false⟩ : CQ Nat).shutdown true).pop
      none).1 = .error .shutDown := by
  have h := C2_shutdown_graceful_vs_immediate
    (⟨[(1, .item 7)], 0, 1, 0, false⟩ : CQ Nat) 7 8 none rfl rfl
    (by decide) rfl
  exact ⟨h.1, h.2.2.1, h.2.2.2.2⟩

/-- C3 counterexample: on a fresh queue, a `push` whose store write fails
sets `FAILED` and re-raises, but a subsequent `push` with a working store
succeeds (`push` never consults `FAILED`), contradicting the claim that
every subsequent operation — push as well as pop — raises the internal
error. -/
theorem C3_counterexample :
    ((CQ.init Nat false).push (.item 0) false).1 = some .storeError ∧
    (((CQ.init Nat false).push (.item 0) false).2).flags &&& FAILED ≠ 0 ∧
    ((((CQ.init Nat false).push (.item 0) false).2).push (.item 1)
      true).1 = none := by
  decide

/-- C3 (amended): once a backing-store write fails inside `push`, the
failing push raises the store error, the `FAILED` flag is set and is never
cleared by later pushes, pops or shutdowns, and every subsequent `pop`
raises `RuntimeError("Queue failed")`; subsequent pushes are not gated on
`FAILED` (only on `SHUTDOWN`) and so do not raise it. -/
theorem C3_failed_poisons_pops {α : Type} (q : CQ α) (v : Slot α)
    (hsd : q.flags &&& SHUTDOWN = 0) (hns : q.flags &&& SHUT_NOW = 0) :
    (q.push v false).1 = some .storeError ∧
    ((q.push v false).2).flags &&& FAILED ≠ 0 ∧
    (∀ t, (((q.push v false).2).pop t).1 =
      .error (.runtimeError "Queue failed")) ∧
    (∀ t, ((((q.push v false).2).pop t).2.1).flags &&& FAILED ≠ 0) ∧
    (∀ w ok, ((((q.push v false).2).push w ok).2).flags &&& FAILED ≠ 0) ∧
    (∀ imm, (((q.push v false).2).shutdown imm).flags &&& FAILED ≠ 0) := by
  have hp := push_fail q v hsd
  rw [hp]
  have hfne : ({ q with inkey := q.inkey + 1,
                        flags := q.flags ||| FAILED } : CQ α).flags &&&
      FAILED ≠ 0 :=
    mask_or_ne _ _ _ (by decide)
  have hsn : ({ q with inkey := q.inkey + 1,
                       flags := q.flags ||| FAILED } : CQ α).flags &&&
      SHUT_NOW = 0 :=
    mask_or_zero _ _ _ hns (by decide)
  refine ⟨rfl, hfne, ?_, ?_, ?_, ?_⟩
  · intro t
    rw [pop_failed _ t hsn hfne]
  · intro t
    rw [pop_flags]
    exact hfne
  · intro w ok
    exact flagsLE_mask_ne _ _ _ (push_flagsLE _ w ok) hfne
  · intro imm
    exact flagsLE_mask_ne _ _ _ (shutdown_flagsLE _ imm) hfne

/-- C3 witness: the amended behaviour on a fresh queue. -/
theorem C3_witness :
    (((CQ.init Nat false).push (.item 0) false).2.pop none).1 =
      .error (.runtimeError "Queue failed") ∧
    ((((CQ.init Nat false).push (.item 0) false).2).shutdown
      true).flags &&& FAILED ≠ 0 := by
  have h := C3_failed_poisons_pops (CQ.init Nat false) (.item 0) rfl rfl
  exact ⟨h.2.2.1 none, h.2.2.2.2.2 true⟩

/-- C4 counterexample: on a concrete state where the consumer's ticket is
already covered by `inkey` but the slot never appears (`dict` empty,
`inkey = 1`, `outkey = 0`: a producer incremented `inkey` but its write is
not yet visible), the bounded retry loop performs 100 attempts, gives up
with `RuntimeError`, and its sleep schedule contains only 4 zero-duration
sleeps — the first 4 attempts, not the first ~95 the claim states; the
remaining 96 attempts short-sleep, so the first 95 sleeps are not all
zero. -/
theorem C4_counterexample :
    ((CQ.pop (⟨[], 0, 1, 0, false⟩ : CQ Nat) none).2.2).take 95 ≠
      List.replicate 95 0 ∧
    ((CQ.pop (⟨[], 0, 1, 0, false⟩ : CQ Nat) none).2.2).length = 100 ∧
    ((CQ.pop (⟨[], 0, 1, 0, false⟩ : CQ Nat) none).2.2).count 0 = 4 ∧
    (CQ.pop (⟨[], 0, 1, 0, false⟩ : CQ Nat) none).1 =
      .error (.runtimeError "Failed to acquire value in timely fashion")
    := by
  decide

/-- C4 (amended): once the consumer believes the value for its ticket
should exist (`inkey ≥ ticket`), the read is governed by a bounded retry
loop of 100 attempts that fast-spins (zero-duration sleeps) for the first
4 attempts — those that leave the countdown above 95 — and short-sleeps
0.05 s for the remaining 96 attempts, then gives up raising
`RuntimeError("Failed to acquire value in timely fashion")` if the value
never appears. -/
theorem C4_retry_schedule {α : Type} (q : CQ α) (t : Option ℚ)
    (h1 : q.flags &&& SHUT_NOW = 0) (h2 : q.flags &&& FAILED = 0)
    (h3 : q.outkey + 1 ≤ q.inkey)
    (habsent : getk q.dict (q.outkey + 1) = none) :
    (q.pop t).1 =
      .error (.runtimeError "Failed to acquire value in timely fashion") ∧
    (q.pop t).2.2 = List.replicate 4 0 ++ List.replicate 96 50 := by
  have h3' : ¬(q.inkey < q.outkey + 1) := by omega
  have hstep : q.pop t =
      CQ.popRetry { q with outkey := q.outkey + 1 } (q.outkey + 1) t
        100 := by
    simp [CQ.pop, h1, h2, h3']
  have hr := popRetry_absent { q with outkey := q.outkey + 1 }
    (q.outkey + 1) t 100 habsent
  have hsched : (List.range 100).map
      (fun i => if 100 - 1 - i > 95 then (0 : Nat) else 50) =
      List.replicate 4 0 ++ List.replicate 96 50 := by
    decide
  refine ⟨?_, ?_⟩
  · rw [hstep, hr]
  · rw [hstep, hr]
    exact hsched

/-- C4 witness: the amended schedule evaluated on the concrete state. -/
theorem C4_witness :
    ((CQ.pop (⟨[], 0, 1, 0, false⟩ : CQ Nat) none).2.2) =
      List.replicate 4 0 ++ List.replicate 96 50 := by
  have h := C4_retry_schedule (⟨[], 0, 1, 0, false⟩ : CQ Nat) none
    rfl rfl (by decide) rfl
  exact h.2

/-- C5: for every `max_key ≥ 0`, when every key `0..max_key` is present,
`iterator(max_key, clear)` runs to completion yielding exactly the values
stored at keys `0, 1, ..., max_key` in increasing key order; with
`clear = True` every walked key has been deleted from the store (and keys
outside `0..max_key` are untouched), while with `clear = False` the store
is left exactly as it was. -/
theorem C5_gathering_iterator_in_order {α : Type} (g : Gather α)
    (max_key : Int) (clear : Bool) (vf : Nat → α)
    (hmk : 0 ≤ max_key)
    (hvals : ∀ i : Nat, (i : Int) ≤ max_key →
      getk g.dict (i : Int) = some (vf i)) :
    (g.iterator max_key clear).status = .done ∧
    (g.iterator max_key clear).yielded =
      (List.range (max_key + 1).toNat).map vf ∧
    (clear = false → (g.iterator max_key clear).dict = g.dict) ∧
    (clear = true →
      (∀ i : Nat, (i : Int) ≤ max_key →
        getk (g.iterator max_key clear).dict (i : Int) = none) ∧
      (∀ j : Int, (j < 0 ∨ max_key < j) →
        getk (g.iterator max_key clear).dict j = getk g.dict j)) := by
  have hfuel : ∀ i : Nat, i < (max_key + 1).toNat →
      getk g.dict ((0 : Int) + (i : Int)) = some (vf i) := by
    intro i hi
    have hle : (i : Int) ≤ max_key := by omega
    simpa using hvals i hle
  cases clear with
  | false =>
    have h := gatherFrom_all_noclear _ g.dict g.failed 0 vf hfuel
    unfold Gather.iterator
    rw [h]
    refine ⟨rfl, rfl, fun _ => rfl, ?_⟩
    intro hc
    simp at hc
  | true =>
    obtain ⟨hs, hy, hd⟩ :=
      gatherFrom_all_clear ((max_key + 1).toNat) g.dict g.failed 0 vf hfuel
    unfold Gather.iterator
    refine ⟨hs, hy, ?_, ?_⟩
    · intro hc
      simp at hc
    · intro _
      refine ⟨?_, ?_⟩
      · intro i hi
        rw [hd (i : Int), if_pos (by constructor <;> omega)]
      · intro j hj
        rw [hd j, if_neg (by omega)]

/-- C5 witness: three values gathered in order, both with and without
clearing. -/
theorem C5_witness :
    ((⟨[(0, 10), (1, 11), (2, 12)], false⟩ : Gather Nat).iterator 2
      true).status = .done ∧
    ((⟨[(0, 10), (1, 11), (2, 12)], false⟩ : Gather Nat).iterator 2
      true).yielded = [10, 11, 12] ∧
    getk ((⟨[(0, 10), (1, 11), (2, 12)], false⟩ : Gather Nat).iterator 2
      true).dict 1 = none := by
  have h := C5_gathering_iterator_in_order
    (⟨[(0, 10), (1, 11), (2, 12)], false⟩ : Gather Nat) 2 true
    (fun i => 10 + i) (by decide)
    (by
      intro i hi
      have hlt : i < 3 := by omega
      interval_cases i <;> rfl)
  refine ⟨h.1, ?_, (h.2.2.2 rfl).1 1 (by decide)⟩
  rw [h.2.1]
  rfl

/-- C6 counterexample: after a failing insert has set the failure flag, an
iteration whose keys are all already present completes normally and
yields its values — it does not observe the flag and does not fail,
contradicting the claim that every iteration call fails regardless of
whether its keys are present. -/
theorem C6_counterexample :
    (((Gather.insert
        ((Gather.insert (⟨[], false⟩ : Gather Nat) 0 42 true).2)
        5 99 false).2).failed = true) ∧
    (((Gather.insert
        ((Gather.insert (⟨[], false⟩ : Gather Nat) 0 42 true).2)
        5 99 false).2).iterator 0 true).status = .done ∧
    (((Gather.insert
        ((Gather.insert (⟨[], false⟩ : Gather Nat) 0 42 true).2)
        5 99 false).2).iterator 0 true).yielded = [42] := by
  decide

/-- C6 (amended): if an insert fails, the process-visible failure flag is
set, and an iteration call observes it exactly when it has to wait for a
key that is not present in the store: such a call raises
`RuntimeError("Iterator insertion failed")` instead of waiting forever,
while a call whose keys are all present never consults the flag and
completes normally. -/
theorem C6_failure_flag_on_wait {α : Type} (g : Gather α) (max_key : Int)
    (clear : Bool) (hf : g.failed = true) :
    (g.iterator max_key clear).status ≠ .blocked ∧
    ((∃ i : Nat, (i : Int) ≤ max_key ∧ getk g.dict (i : Int) = none) →
      (g.iterator max_key clear).status = .failError) := by
  have h := gatherFrom_failed (max_key + 1).toNat g.dict clear 0
  unfold Gather.iterator
  rw [hf]
  constructor
  · exact h.1
  · rintro ⟨i, hi, hnone⟩
    apply h.2
    exact ⟨i, by omega, by simpa using hnone⟩

/-- C6 witness: an iterator that needs a missing key fails with the
internal error once the flag is set. -/
theorem C6_witness :
    ((⟨[], true⟩ : Gather Nat).iterator 0 true).status = .failError := by
  have h := C6_failure_flag_on_wait (⟨[], true⟩ : Gather Nat) 0 true rfl
  exact h.2 ⟨0, by decide, rfl⟩

/-- C7: the flag word holding `SHUTDOWN`, `SHUT_NOW` and `FAILED` is
monotonic: `push`, `pop`, `shutdown` and pop's helpers
(`_load_placeholder` and the bounded retry loop) only OR bits into it and
never clear one, so the old flag word is always a sub-mask of the new
one. -/
theorem C7_flags_monotonic {α : Type} (q : CQ α) (v : Slot α) (ok : Bool)
    (imm : Bool) (t : Option ℚ) (k : Int) (c : Nat) :
    flagsLE q.flags ((q.push v ok).2).flags ∧
    flagsLE q.flags ((q.shutdown imm).flags) ∧
    flagsLE q.flags (((q.pop t).2.1).flags) ∧
    flagsLE q.flags (((q.loadPlaceholder k t).2).flags) ∧
    flagsLE q.flags (((q.popRetry k t c).2.1).flags) := by
  refine ⟨push_flagsLE q v ok, shutdown_flagsLE q imm, ?_, ?_, ?_⟩
  · rw [pop_flags]
    exact flagsLE_refl _
  · rw [loadPlaceholder_flags]
    exact flagsLE_refl _
  · rw [popRetry_flags]
    exact flagsLE_refl _

/-- C8: for `StdConcurrentQueue` (whose constructor clamps `maxsize` to
`≥ 0`), `full()` is true exactly when `maxsize > 0` and
`size() ≥ maxsize`; provided the queue is not shut down,
`put(item, block=False)` raises `Full` and leaves the queue unchanged
exactly when `full()` is true, and otherwise (always when `maxsize = 0`,
which is never full) enqueues the item at the next producer ticket and
increments the active-task counter by one. -/
theorem C8_std_full_put {α : Type} (s : StdCQ α) (item : α) (t : Option ℚ)
    (hm : 0 ≤ s.maxsize) (hsd : s.q.flags &&& SHUTDOWN = 0) :
    (s.full = true ↔ (0 < s.maxsize ∧ s.maxsize ≤ s.q.size)) ∧
    (s.maxsize = 0 → s.full = false) ∧
    (s.full = true → s.put item false t true = (.error .full, s)) ∧
    (s.full = false →
      s.put item false t true =
        (.ok (), { s with
          q := { s.q with inkey := s.q.inkey + 1,
                          dict := setk s.q.dict (s.q.inkey + 1)
                            (.item item) },
          active_tasks := s.active_tasks + 1 })) := by
  refine ⟨?_, ?_, ?_, ?_⟩
  · simp only [StdCQ.full, Bool.and_eq_true, bne_iff_ne, ne_eq,
      decide_eq_true_eq]
    omega
  · intro h0
    simp [StdCQ.full, h0]
  · intro hf
    simp [StdCQ.put, hf]
  · intro hf
    simp [StdCQ.put, hf, push_ok s.q (.item item) hsd]

/-- C8 witness: an empty bounded queue accepts a non-blocking `put` and
counts the task; a full one rejects it with `Full` and is unchanged. -/
theorem C8_witness :
    (StdCQ.init Nat 1).full = false ∧
    ((StdCQ.init Nat 1).put 5 false none true).1 = .ok () ∧
    ((StdCQ.init Nat 1).put 5 false none true).2.active_tasks = 1 ∧
    (⟨⟨[(1, .item 9)], 0, 1, 0, true⟩, 1, 1⟩ : StdCQ Nat).full = true ∧
    ((⟨⟨[(1, .item 9)], 0, 1, 0, true⟩, 1, 1⟩ : StdCQ Nat).put 5 false
      none true) =
      (.error .full, (⟨⟨[(1, .item 9)], 0, 1, 0, true⟩, 1, 1⟩ :
        StdCQ Nat)) := by
  have h := C8_std_full_put (StdCQ.init Nat 1) 5 none (by decide) rfl
  have h4 := h.2.2.2 (by decide)
  have h' := C8_std_full_put
    (⟨⟨[(1, .item 9)], 0, 1, 0, true⟩, 1, 1⟩ : StdCQ Nat) 5 none
    (by decide) rfl
  exact ⟨by decide, by rw [h4], by rw [h4]; rfl, by decide,
    h'.2.2.1 (by decide)⟩

/-- C9: in every state of a `ConcurrentQueue`, `size()` returns
`max(0, inkey - outkey)` and `empty()` is true exactly when `size()` is
zero (equivalently, when `inkey ≤ outkey`). -/
theorem C9_size_empty {α : Type} (q : CQ α) :
    q.size = max 0 (q.inkey - q.outkey) ∧
    (q.isEmpty = true ↔ q.size = 0) ∧
    (q.isEmpty = true ↔ q.inkey ≤ q.outkey) := by
  refine ⟨rfl, ?_, ?_⟩
  · simp [CQ.isEmpty]
  · simp only [CQ.isEmpty, CQ.size, beq_iff_eq]
    omega

/-- C10: `StdConcurrentQueue.get(block=False)` (and `get_nowait`) on a
queue whose `size()` is 0 raises `Empty` and leaves the whole state
unchanged — in particular `outkey` is not incremented and no placeholder
is inserted — in contrast to a timed-out blocking `pop`, which increments
`outkey` and stores a placeholder before raising `Empty`. -/
theorem C10_get_nonblocking_empty {α : Type} (s : StdCQ α)
    (t : Option ℚ) (h : s.q.size = 0) :
    s.get false t = (.error .empty, s) ∧
    s.get_nowait = (.error .empty, s) ∧
    (s.q.flags = 0 → s.q.inkey = s.q.outkey → ∀ r : ℚ,
      (s.q.pop (some r)).1 = .error .empty ∧
      ((s.q.pop (some r)).2.1).outkey = s.q.outkey + 1 ∧
      getk ((s.q.pop (some r)).2.1).dict (s.q.inkey + 1) =
        some (.holder (s.q.outkey + 1))) := by
  have hng : ¬(s.q.size > 0) := by omega
  refine ⟨?_, ?_, ?_⟩
  · simp [StdCQ.get, hng]
  · simp [StdCQ.get_nowait, StdCQ.get, hng]
  · intro hfl hio r
    have h1 : s.q.flags &&& SHUT_NOW = 0 := by rw [hfl]; rfl
    have h2 : s.q.flags &&& FAILED = 0 := by rw [hfl]; rfl
    have h4 : s.q.flags &&& SHUTDOWN = 0 := by rw [hfl]; rfl
    rw [pop_timeout s.q r h1 h2 (by omega) h4]
    exact ⟨rfl, rfl, getk_setk_self _ _ _⟩

/-- C10 witness: on a fresh `StdConcurrentQueue`. -/
theorem C10_witness :
    (StdCQ.init Nat 0).get false none =
      (.error .empty, StdCQ.init Nat 0) ∧
    (((StdCQ.init Nat 0).q.pop (some 1)).2.1).outkey = 1 := by
  have h := C10_get_nonblocking_empty (StdCQ.init Nat 0) none (by decide)
  exact ⟨h.1, (h.2.2 rfl rfl 1).2.1⟩

end FtUtils
